import Mathlib

/-!
Verification of the audio capture-and-framing pipeline (`src/lib/audio.ts`)
and the duplex streaming transport (`src/lib/ws.ts`) of the repository.

Shallow embedding conventions:
* Floating-point samples are modelled as exact rationals (`ℚ`); the claims
  checked here are structural (lengths, ranges, exact values at 0 and ±1,
  state invariants) and hold in exact arithmetic exactly as in the source.
* JS `Int16Array` element conversion (ToInt16) truncates toward zero and
  wraps modulo 2^16; both steps are modelled explicitly.
* Timestamps (`performance.now()`) are rationals.
* The async/event-driven control flow is modelled by explicit atomic steps:
  each JS callback body runs to completion, so one Lean function per
  callback body, threading the captured mutable state explicitly.
-/

namespace Audio

/-- `const TARGET_SAMPLE_RATE = 16000` in `src/lib/audio.ts`. -/
def TARGET_SAMPLE_RATE : ℕ := 16000

/-- `const FRAME_DURATION_MS = 250` in `src/lib/audio.ts`. -/
def FRAME_DURATION_MS : ℕ := 250

/-- `Math.round((TARGET_SAMPLE_RATE * FRAME_DURATION_MS) / 1000)`; the
division is exact (4000000 / 1000), so `Math.round` is the identity here and
ℕ division is faithful. -/
def samplesPerFrame : ℕ := TARGET_SAMPLE_RATE * FRAME_DURATION_MS / 1000

/-- JS ToIntegerOrInfinity for finite values: truncation toward zero. -/
def jsTrunc (q : ℚ) : ℤ := if q < 0 then -⌊-q⌋ else ⌊q⌋

/-- JS ToInt16 wrap step: reduce an integer modulo 2^16 into [-32768, 32767]. -/
def toInt16 (z : ℤ) : ℤ := (z + 32768) % 65536 - 32768

/-- `floatTo16BitPCM` from `src/lib/audio.ts`:
clamp each sample to [-1, 1] (`Math.max(-1, Math.min(1, x))`), scale negative
values by 0x8000 and non-negative ones by 0x7fff, and store into an
`Int16Array` (truncate toward zero, wrap to 16-bit signed). -/
def floatTo16BitPCM (float32 : List ℚ) : List ℤ :=
  float32.map (fun x =>
    let s := max (-1 : ℚ) (min 1 x)
    toInt16 (jsTrunc (if s < 0 then s * 0x8000 else s * 0x7fff)))

/-- `resampleLinear` from `src/lib/audio.ts`. Out-of-range reads cannot occur
on the inputs reachable from the capture callback (rates positive,
`inputRate ≥ targetRate`); `List.getD _ _ 0` stands for the in-bounds
`input[i]` access, and the ℕ truncating `input.length - 1` agrees with the JS
`input.length - 1` whenever the loop body runs (the loop is empty when
`input.length = 0`). -/
def resampleLinear (input : List ℚ) (inputRate targetRate : ℕ) : List ℚ :=
  if inputRate = targetRate then input
  else
    let ratio : ℚ := (inputRate : ℚ) / (targetRate : ℚ)
    let newLength : ℕ := (⌊(input.length : ℚ) / ratio⌋).toNat
    (List.range newLength).map (fun (i : ℕ) =>
      let idx : ℚ := (i : ℚ) * ratio
      let idxLow : ℕ := (⌊idx⌋).toNat
      let idxHigh : ℕ := min (idxLow + 1) (input.length - 1)
      let weight : ℚ := idx - (idxLow : ℚ)
      input.getD idxLow 0 * (1 - weight) + input.getD idxHigh 0 * weight)

/-- The mutable state captured by the closure returned from
`createMicrophonePcmStream`. Resource handles (`mediaStream`, `audioContext`,
`processor`, `sourceNode`) are modelled as held/not-held booleans; the pending
resample buffer and the last-emission timestamp are kept exactly. -/
structure FramerState where
  mediaStream : Bool
  audioContext : Bool
  processor : Bool
  sourceNode : Bool
  running : Bool
  resampleBuffer : List ℚ
  lastEmitTime : ℚ
deriving Repr, DecidableEq

/-- The initial closure state: all handles null, not running, empty buffer. -/
def initialFramerState : FramerState :=
  { mediaStream := false, audioContext := false, processor := false,
    sourceNode := false, running := false, resampleBuffer := [], lastEmitTime := 0 }

/-- `isRecording` from `src/lib/audio.ts`: `() => running`. -/
def isRecording (st : FramerState) : Bool := st.running

/-- `stop` from `src/lib/audio.ts`: sets `running = false`, disconnects and
nulls the processor, source node, audio context and media stream, and resets
the resample buffer to empty. (`lastEmitTime` is not touched by `stop`.) -/
def stop (st : FramerState) : FramerState :=
  { st with running := false, processor := false, sourceNode := false,
            audioContext := false, mediaStream := false, resampleBuffer := [] }

/-- The synchronous prefix of `start` in `src/lib/audio.ts`, up to and
including the `await navigator.mediaDevices.getUserMedia(...)` suspension
point: if `running` it returns at once (the returned flag is `false`, no
continuation is scheduled); otherwise it initiates the microphone request and
suspends, changing no closure state before the `await` resumes. -/
def startPhase1 (st : FramerState) : FramerState × Bool :=
  if st.running then (st, false) else (st, true)

/-- The continuation of `start` after `getUserMedia` resolves successfully:
assigns `mediaStream`, creates the audio context, source node and script
processor, wires them, sets `running = true` and `lastEmitTime = now`, and
installs `onaudioprocess`. Note that `running` is NOT re-checked after the
`await`. -/
def startPhase2 (st : FramerState) (now : ℚ) : FramerState :=
  { st with mediaStream := true, audioContext := true, sourceNode := true,
            processor := true, running := true, lastEmitTime := now }

/-- The body of the `onaudioprocess` callback in `src/lib/audio.ts`, for one
capture-backend invocation delivering the native-rate block `input` at time
`now` (`performance.now()`), with `ctxRate` the audio context's sample rate
(`audioContext!.sampleRate`). Returns the updated closure state together with
the list of payloads passed to `callbacks.onChunk` during this invocation
(each payload an `Int16Array` worth of samples); the `try ... catch` around
`onChunk` routes a throwing consumer to `onError` without touching the
framer state, so it does not appear in the state. -/
def onaudioprocess (st : FramerState) (input : List ℚ) (now : ℚ) (ctxRate : ℕ) :
    FramerState × List (List ℤ) :=
  if st.running = false then (st, [])
  else
    let resampled := resampleLinear input ctxRate TARGET_SAMPLE_RATE
    let buf := st.resampleBuffer ++ resampled
    if (FRAME_DURATION_MS : ℚ) ≤ now - st.lastEmitTime then
      let framesToEmit := buf.length / samplesPerFrame
      if 0 < framesToEmit then
        let emitCount := framesToEmit * samplesPerFrame
        let frame := buf.take emitCount
        ({ st with resampleBuffer := buf.drop emitCount, lastEmitTime := now },
         [floatTo16BitPCM frame])
      else ({ st with resampleBuffer := buf }, [])
    else ({ st with resampleBuffer := buf }, [])

/-- A whole capture run: fold `onaudioprocess` over a sequence of
capture-callback events `(input, now)`, collecting every payload handed to
`onChunk`, in emission order. -/
def runFramer (st : FramerState) (ctxRate : ℕ) :
    List (List ℚ × ℚ) → FramerState × List (List ℤ)
  | [] => (st, [])
  | e :: rest =>
    ((runFramer (onaudioprocess st e.1 e.2 ctxRate).1 ctxRate rest).1,
     (onaudioprocess st e.1 e.2 ctxRate).2
       ++ (runFramer (onaudioprocess st e.1 e.2 ctxRate).1 ctxRate rest).2)

end Audio

namespace Ws

/-- The `WebSocket.readyState` constants of the platform socket. -/
inductive ReadyState
  | CONNECTING
  | OPEN
  | CLOSING
  | CLOSED
deriving Repr, DecidableEq

/-- The underlying platform socket, as far as `src/lib/ws.ts` observes it. -/
structure Sock where
  readyState : ReadyState
deriving Repr, DecidableEq

/-- The mutable closure state of `createWebSocketClient`: the cached socket
and the cached in-flight open promise. Promises are identified by numbers
(`nextPromiseId` is the fresh-name source); `attempts` is a history variable
counting how many times `new WebSocket(url)` has been executed, i.e. how many
underlying connection attempts were made. -/
structure ClientState where
  socket : Option Sock
  openPromise : Option ℕ
  nextPromiseId : ℕ
  attempts : ℕ
deriving Repr, DecidableEq

/-- The closure state right after `createWebSocketClient` returns:
`socket = null`, `openPromise = null`. -/
def initialClientState : ClientState :=
  { socket := none, openPromise := none, nextPromiseId := 0, attempts := 0 }

/-- `isOpen` from `src/lib/ws.ts`: `!!socket && socket.readyState === WebSocket.OPEN`. -/
def isOpen (st : ClientState) : Bool :=
  match st.socket with
  | some s => s.readyState = ReadyState.OPEN
  | none => false

/-- What a `connect()` call hands back to its caller. -/
inductive ConnectResult
  | resolved
  | pending (id : ℕ)
deriving Repr, DecidableEq

/-- The synchronous body of `connect` from `src/lib/ws.ts`: if the socket is
open, return `Promise.resolve()`; if an open promise is cached, return it;
otherwise construct a new `WebSocket` (readyState `CONNECTING`), cache a fresh
promise and return it. The `try` around the constructor never fires in this
model (socket construction succeeds), matching the success path of the
source. -/
def connect (st : ClientState) : ClientState × ConnectResult :=
  if isOpen st then (st, ConnectResult.resolved)
  else
    match st.openPromise with
    | some p => (st, ConnectResult.pending p)
    | none =>
      ({ socket := some ⟨ReadyState.CONNECTING⟩,
         openPromise := some st.nextPromiseId,
         nextPromiseId := st.nextPromiseId + 1,
         attempts := st.attempts + 1 },
       ConnectResult.pending st.nextPromiseId)

/-- `sendAudioChunk` from `src/lib/ws.ts`: if the cached socket exists and its
readyState is `OPEN`, send the chunk (one whole message); otherwise do
nothing. Returns the unchanged-or-same closure state and the list of messages
handed to `socket.send` by this call. The function is total and returns
normally on every input. -/
def sendAudioChunk (st : ClientState) (chunk : List ℤ) : ClientState × List (List ℤ) :=
  if isOpen st then (st, [chunk]) else (st, [])

/-- JSON values, the codomain of a successful `JSON.parse`. -/
inductive Json
  | null
  | bool (b : Bool)
  | num (q : ℚ)
  | str (s : String)
  | arr (elems : List Json)
  | obj (fields : List (String × Json))

/-- An inbound `MessageEvent.data`, abstracted to what the `onmessage` handler
branches on: a binary frame, or a text frame carried together with the result
of `JSON.parse` on it (`none` when `JSON.parse` throws a `SyntaxError`). -/
inductive WsData
  | binary
  | text (parse : Option Json)

/-- The body of `socket.onmessage` from `src/lib/ws.ts`, for one inbound
frame: non-string data is ignored; string data is `JSON.parse`d and the
result — whatever JSON value it is, with no shape validation — is handed to
`onMessage`; a `JSON.parse` exception is caught and handed to `onError`.
Returns the closure state (which the handler never mutates), the list of
values delivered to `onMessage`, and the number of `onError` calls. -/
def onmessage (st : ClientState) (d : WsData) : ClientState × List Json × ℕ :=
  match d with
  | WsData.binary => (st, [], 0)
  | WsData.text none => (st, [], 1)
  | WsData.text (some j) => (st, [j], 0)

/-- First binding of a key in a JSON object's field list. -/
def lookupField (fields : List (String × Json)) (k : String) : Option Json :=
  match fields with
  | [] => none
  | (key, v) :: rest => if key = k then some v else lookupField rest k

/-- Spec-side definition, written from the spec's words for comparison with
`onmessage`: a JSON value is a well-formed `ServerMessage` iff it is an
object with `type = "transcript"` and a string `text` field (`is_final`
optional), or an object with `type = "error"` and a string `message`
field. -/
def isWellFormedServerMessage : Json → Bool
  | Json.obj fields =>
    (match lookupField fields "type", lookupField fields "text" with
     | some (Json.str t), some (Json.str _) => t == "transcript"
     | _, _ => false)
    ||
    (match lookupField fields "type", lookupField fields "message" with
     | some (Json.str t), some (Json.str _) => t == "error"
     | _, _ => false)
  | _ => false

end Ws

namespace Audio

/-- The framer closure state right after a successful `start`, with nothing
buffered yet: the configuration every capture-callback sequence starts
from. -/
def runningState : FramerState :=
  { mediaStream := true, audioContext := true, processor := true,
    sourceNode := true, running := true, resampleBuffer := [], lastEmitTime := 0 }

lemma toInt16_eq_self {z : ℤ} (h1 : -32768 ≤ z) (h2 : z ≤ 32767) : toInt16 z = z := by
  unfold toInt16
  omega

lemma jsTrunc_bounds {q : ℚ} {a b : ℤ} (ha0 : a ≤ 0) (hb0 : 0 ≤ b)
    (ha : (a : ℚ) ≤ q) (hb : q ≤ (b : ℚ)) : a ≤ jsTrunc q ∧ jsTrunc q ≤ b := by
  unfold jsTrunc
  by_cases h : q < 0
  · simp only [if_pos h]
    have hfl : ⌊-q⌋ ≤ -a := by
      have h1 : -q ≤ ((-a : ℤ) : ℚ) := by push_cast; linarith
      have h2 := Int.floor_mono h1
      simpa using h2
    have hfl0 : 0 ≤ ⌊-q⌋ := by
      rw [Int.le_floor]
      push_cast
      linarith
    omega
  · simp only [if_neg h]
    push_neg at h
    have h1 : a ≤ ⌊q⌋ := by
      rw [Int.le_floor]
      exact le_trans (by exact_mod_cast ha0) h
    have h2 : ⌊q⌋ ≤ b := by
      have := Int.floor_mono hb
      simpa using this
    exact ⟨h1, h2⟩

lemma pcmSample_bounds (x : ℚ) :
    -32768 ≤ jsTrunc (if max (-1 : ℚ) (min 1 x) < 0
                      then max (-1 : ℚ) (min 1 x) * 0x8000
                      else max (-1 : ℚ) (min 1 x) * 0x7fff) ∧
    jsTrunc (if max (-1 : ℚ) (min 1 x) < 0
             then max (-1 : ℚ) (min 1 x) * 0x8000
             else max (-1 : ℚ) (min 1 x) * 0x7fff) ≤ 32767 := by
  set s := max (-1 : ℚ) (min 1 x) with hs
  have hlo : (-1 : ℚ) ≤ s := le_max_left _ _
  have hhi : s ≤ 1 := max_le (by norm_num) (min_le_left _ _)
  by_cases h : s < 0
  · rw [if_pos h]
    refine jsTrunc_bounds (by norm_num) (by norm_num) ?_ ?_
    · push_cast
      nlinarith
    · push_cast
      nlinarith
  · rw [if_neg h]
    push_neg at h
    refine jsTrunc_bounds (by norm_num) (by norm_num) ?_ ?_
    · push_cast
      nlinarith
    · push_cast
      nlinarith

end Audio

/-- C9: when the native sample rate equals the target sample rate,
`resampleLinear` is the identity transform: the output is the very same
sample sequence as the input (the source even returns the same array). -/
theorem resampleLinear_same_rate_identity (input : List ℚ) (rate : ℕ) :
    Audio.resampleLinear input rate rate = input := by
  simp [Audio.resampleLinear]

/-- C4: `floatTo16BitPCM` clamps each sample to [-1, 1] and scales negative
values by 32768 and non-negative ones by 32767: +1 maps to 32767, -1 to
-32768, 0 to 0; every output sample lies in [-32768, 32767]; and the 16-bit
store never wraps (the Int16 conversion is the identity on every produced
value, so the clamp-and-scale alone determines the output). -/
theorem floatTo16BitPCM_clamp_range :
    Audio.floatTo16BitPCM [1] = [32767] ∧
    Audio.floatTo16BitPCM [-1] = [-32768] ∧
    Audio.floatTo16BitPCM [0] = [0] ∧
    (∀ (xs : List ℚ) (y : ℤ), y ∈ Audio.floatTo16BitPCM xs →
      -32768 ≤ y ∧ y ≤ 32767) ∧
    (∀ xs : List ℚ, Audio.floatTo16BitPCM xs = xs.map (fun x =>
      Audio.jsTrunc (if max (-1 : ℚ) (min 1 x) < 0
                     then max (-1 : ℚ) (min 1 x) * 0x8000
                     else max (-1 : ℚ) (min 1 x) * 0x7fff))) := by
  have key : ∀ x : ℚ,
      Audio.toInt16 (Audio.jsTrunc (if max (-1 : ℚ) (min 1 x) < 0
        then max (-1 : ℚ) (min 1 x) * 0x8000
        else max (-1 : ℚ) (min 1 x) * 0x7fff))
      = Audio.jsTrunc (if max (-1 : ℚ) (min 1 x) < 0
        then max (-1 : ℚ) (min 1 x) * 0x8000
        else max (-1 : ℚ) (min 1 x) * 0x7fff) := by
    intro x
    exact Audio.toInt16_eq_self (Audio.pcmSample_bounds x).1 (Audio.pcmSample_bounds x).2
  refine ⟨by norm_num [Audio.floatTo16BitPCM, Audio.jsTrunc, Audio.toInt16],
    by norm_num [Audio.floatTo16BitPCM, Audio.jsTrunc, Audio.toInt16],
    by norm_num [Audio.floatTo16BitPCM, Audio.jsTrunc, Audio.toInt16], ?_, ?_⟩
  · intro xs y hy
    simp only [Audio.floatTo16BitPCM, List.mem_map] at hy
    obtain ⟨x, -, hx⟩ := hy
    rw [← hx, key x]
    exact Audio.pcmSample_bounds x
  · intro xs
    simp only [Audio.floatTo16BitPCM]
    exact List.map_congr_left fun x _ => key x

/-- Witness for C4 at the concrete sample 1/2 (which encodes to 16383). -/
theorem floatTo16BitPCM_clamp_range_witness :
    -32768 ≤ (16383 : ℤ) ∧ (16383 : ℤ) ≤ 32767 :=
  floatTo16BitPCM_clamp_range.2.2.2.1 [1/2] 16383
    (by norm_num [Audio.floatTo16BitPCM, Audio.jsTrunc, Audio.toInt16])

/-- C7: whenever the connection is not open (`isOpen` false: no socket, or a
socket in any non-OPEN readyState), `sendAudioChunk` performs no send and
leaves the whole transport state unchanged; it is a total function that
returns normally, so it neither raises nor blocks. -/
theorem sendAudioChunk_drop_when_not_open (st : Ws.ClientState) (chunk : List ℤ)
    (h : Ws.isOpen st = false) : Ws.sendAudioChunk st chunk = (st, []) := by
  simp [Ws.sendAudioChunk, h]

/-- Witness for C7: a send on the freshly created (Closed) client drops the
frame and changes nothing. -/
theorem sendAudioChunk_drop_when_not_open_witness :
    Ws.sendAudioChunk Ws.initialClientState [0] = (Ws.initialClientState, []) :=
  sendAudioChunk_drop_when_not_open Ws.initialClientState [0] rfl

/-- C3 counterexample: `"42"` is a text frame that parses as JSON (the value
42) but is not a well-formed `ServerMessage` of the tagged union; the
`onmessage` handler nevertheless delivers it to the message callback (and
reports no error), because the source performs no shape validation after
`JSON.parse`. -/
theorem onmessage_delivers_malformed :
    Ws.onmessage Ws.initialClientState (Ws.WsData.text (some (Ws.Json.num 42)))
      = (Ws.initialClientState, [Ws.Json.num 42], 0) ∧
    Ws.isWellFormedServerMessage (Ws.Json.num 42) = false :=
  ⟨rfl, rfl⟩

/-- C3 amended: for every inbound text frame, the parsed JSON value — any
JSON value, with no shape validation against the `ServerMessage` union — is
delivered via the message callback exactly when `JSON.parse` succeeds (so in
particular every well-formed `ServerMessage` is delivered, exactly once, with
no error report); a frame that fails to parse is dropped and reported exactly
once via the error callback; and no inbound frame ever changes the transport
state, so the connection remains Open. -/
theorem onmessage_parse_behavior :
    (∀ (st : Ws.ClientState) (j : Ws.Json),
      Ws.onmessage st (Ws.WsData.text (some j)) = (st, [j], 0)) ∧
    (∀ st : Ws.ClientState, Ws.onmessage st (Ws.WsData.text none) = (st, [], 1)) ∧
    (∀ (st : Ws.ClientState) (d : Ws.WsData), (Ws.onmessage st d).1 = st) :=
  ⟨fun _ _ => rfl, fun _ => rfl, fun st d => by cases d with
    | binary => rfl
    | text p => cases p <;> rfl⟩

/-- C6: connection dedup and idempotence of `connect`. (a) While the
connection is open, `connect` resolves immediately and changes nothing — in
particular no second underlying connection is attempted. (b) While a previous
attempt is pending (cached `openPromise`), `connect` returns that very same
pending outcome and changes nothing. (c) From a state with no cached promise
and no open socket, two consecutive `connect` calls make exactly one
underlying connection attempt between them and hand both callers the same
pending outcome. -/
theorem connect_idempotent_dedup :
    (∀ st : Ws.ClientState, Ws.isOpen st = true →
      Ws.connect st = (st, Ws.ConnectResult.resolved)) ∧
    (∀ (st : Ws.ClientState) (p : ℕ), Ws.isOpen st = false →
      st.openPromise = some p →
      Ws.connect st = (st, Ws.ConnectResult.pending p)) ∧
    (∀ st : Ws.ClientState, Ws.isOpen st = false → st.openPromise = none →
      (Ws.connect st).1.attempts = st.attempts + 1 ∧
      (Ws.connect (Ws.connect st).1).1 = (Ws.connect st).1 ∧
      (Ws.connect (Ws.connect st).1).2 = (Ws.connect st).2) := by
  refine ⟨?_, ?_, ?_⟩
  · intro st h
    simp [Ws.connect, h]
  · intro st p h hp
    simp [Ws.connect, h, hp]
  · intro st h hp
    have h1 : Ws.connect st
        = ({ socket := some ⟨Ws.ReadyState.CONNECTING⟩,
             openPromise := some st.nextPromiseId,
             nextPromiseId := st.nextPromiseId + 1,
             attempts := st.attempts + 1 },
           Ws.ConnectResult.pending st.nextPromiseId) := by
      simp [Ws.connect, h, hp]
    have h2 : Ws.isOpen (Ws.connect st).1 = false := by
      rw [h1]
      rfl
    have h3 : (Ws.connect st).1.openPromise = some st.nextPromiseId := by
      rw [h1]
    have h4 : Ws.connect (Ws.connect st).1
        = ((Ws.connect st).1, Ws.ConnectResult.pending st.nextPromiseId) := by
      generalize hgen : (Ws.connect st).1 = s1 at h2 h3 ⊢
      simp [Ws.connect, h2, h3]
    refine ⟨by rw [h1], by rw [h4], by rw [h4, h1]⟩

/-- Witness for C6 on concrete states: an open client, a client with a
pending attempt, and the fresh client. -/
theorem connect_idempotent_dedup_witness :
    (Ws.connect { socket := some ⟨Ws.ReadyState.OPEN⟩, openPromise := some 0,
                  nextPromiseId := 1, attempts := 1 }
      = ({ socket := some ⟨Ws.ReadyState.OPEN⟩, openPromise := some 0,
           nextPromiseId := 1, attempts := 1 }, Ws.ConnectResult.resolved)) ∧
    (Ws.connect { socket := some ⟨Ws.ReadyState.CONNECTING⟩, openPromise := some 0,
                  nextPromiseId := 1, attempts := 1 }
      = ({ socket := some ⟨Ws.ReadyState.CONNECTING⟩, openPromise := some 0,
           nextPromiseId := 1, attempts := 1 }, Ws.ConnectResult.pending 0)) ∧
    ((Ws.connect Ws.initialClientState).1.attempts = 0 + 1 ∧
      (Ws.connect (Ws.connect Ws.initialClientState).1).1
        = (Ws.connect Ws.initialClientState).1 ∧
      (Ws.connect (Ws.connect Ws.initialClientState).1).2
        = (Ws.connect Ws.initialClientState).2) :=
  ⟨connect_idempotent_dedup.1 _ rfl,
   connect_idempotent_dedup.2.1 _ 0 rfl rfl,
   connect_idempotent_dedup.2.2 Ws.initialClientState rfl rfl⟩

/-- C2: after every emission pass of the capture callback (running, and the
elapsed-time condition held), the pending resample buffer holds strictly
fewer than `samplesPerFrame` samples, and it equals the old buffer plus the
newly resampled samples with ALL complete frames' worth dropped from the
front (drained oldest-first in that single pass), not just one frame's
worth. -/
theorem emission_pass_drains_buffer (st : Audio.FramerState) (input : List ℚ)
    (now : ℚ) (ctxRate : ℕ) (hrun : st.running = true)
    (helapsed : (Audio.FRAME_DURATION_MS : ℚ) ≤ now - st.lastEmitTime) :
    (Audio.onaudioprocess st input now ctxRate).1.resampleBuffer.length
        < Audio.samplesPerFrame ∧
    (Audio.onaudioprocess st input now ctxRate).1.resampleBuffer
      = (st.resampleBuffer
          ++ Audio.resampleLinear input ctxRate Audio.TARGET_SAMPLE_RATE).drop
          ((st.resampleBuffer
            ++ Audio.resampleLinear input ctxRate Audio.TARGET_SAMPLE_RATE).length
            / Audio.samplesPerFrame * Audio.samplesPerFrame) := by
  have hspf4 : Audio.samplesPerFrame = 4000 := by
    norm_num [Audio.samplesPerFrame, Audio.TARGET_SAMPLE_RATE, Audio.FRAME_DURATION_MS]
  unfold Audio.onaudioprocess
  rw [hrun, if_neg (by simp), if_pos helapsed, hspf4]
  set buf := st.resampleBuffer
      ++ Audio.resampleLinear input ctxRate Audio.TARGET_SAMPLE_RATE with hbuf
  by_cases hf : 0 < buf.length / 4000
  · rw [if_pos hf]
    refine ⟨?_, rfl⟩
    simp only [List.length_drop]
    omega
  · rw [if_neg hf]
    have h0 : buf.length / 4000 = 0 := by omega
    have hlen : buf.length < 4000 := by omega
    refine ⟨hlen, ?_⟩
    show buf = buf.drop (buf.length / 4000 * 4000)
    rw [h0, Nat.zero_mul, List.drop_zero]

/-- Witness for C2: an emission pass on a running framer with an empty block
at time 250 leaves fewer than `samplesPerFrame` pending samples. -/
theorem emission_pass_drains_buffer_witness :
    (Audio.onaudioprocess Audio.runningState [] 250 16000).1.resampleBuffer.length
        < Audio.samplesPerFrame ∧
    (Audio.onaudioprocess Audio.runningState [] 250 16000).1.resampleBuffer
      = (Audio.runningState.resampleBuffer
          ++ Audio.resampleLinear [] 16000 Audio.TARGET_SAMPLE_RATE).drop
          ((Audio.runningState.resampleBuffer
            ++ Audio.resampleLinear [] 16000 Audio.TARGET_SAMPLE_RATE).length
            / Audio.samplesPerFrame * Audio.samplesPerFrame) :=
  emission_pass_drains_buffer Audio.runningState [] 250 16000 rfl (by norm_num [Audio.runningState, Audio.FRAME_DURATION_MS])

/-- C8 (evidence of the code bug): in the interleaving "`start()` begins and
suspends at `await getUserMedia`; `stop()` runs to completion; `getUserMedia`
resolves and `start`'s continuation executes", the session ends with
`isRecording()` true and the audio context and media stream (re)acquired —
`stop` does not win, because `start` never re-checks `running` after the
await. -/
theorem stop_then_start_resume_leaves_running :
    (Audio.startPhase1 Audio.initialFramerState).2 = true ∧
    Audio.isRecording
        (Audio.startPhase2
          (Audio.stop (Audio.startPhase1 Audio.initialFramerState).1) 250) = true ∧
    (Audio.startPhase2
        (Audio.stop (Audio.startPhase1 Audio.initialFramerState).1) 250).audioContext
      = true ∧
    (Audio.startPhase2
        (Audio.stop (Audio.startPhase1 Audio.initialFramerState).1) 250).mediaStream
      = true :=
  ⟨rfl, rfl, rfl, rfl⟩

lemma samplesPerFrame_eq : Audio.samplesPerFrame = 4000 := by
  norm_num [Audio.samplesPerFrame, Audio.TARGET_SAMPLE_RATE, Audio.FRAME_DURATION_MS]

lemma resampleLinear_length_ne (input : List ℚ) (ir tr : ℕ) (h : ir ≠ tr) :
    (Audio.resampleLinear input ir tr).length
      = (⌊(input.length : ℚ) / ((ir : ℚ) / (tr : ℚ))⌋).toNat := by
  unfold Audio.resampleLinear
  rw [if_neg h, List.length_map, List.length_range]

lemma getD_map_range {α : Type} (n i : ℕ) (f : ℕ → α) (d : α) (h : i < n) :
    ((List.range n).map f).getD i d = f i := by
  have hlen : i < ((List.range n).map f).length := by
    simpa using h
  rw [List.getD_eq_getElem _ _ hlen, List.getElem_map, List.getElem_range]

lemma onaudioprocess_emit (st : Audio.FramerState) (input : List ℚ) (now : ℚ)
    (ctxRate : ℕ) (hrun : st.running = true)
    (hel : (Audio.FRAME_DURATION_MS : ℚ) ≤ now - st.lastEmitTime)
    (hf : 0 < (st.resampleBuffer
        ++ Audio.resampleLinear input ctxRate Audio.TARGET_SAMPLE_RATE).length
        / Audio.samplesPerFrame) :
    Audio.onaudioprocess st input now ctxRate
      = ({ st with
            resampleBuffer := (st.resampleBuffer
              ++ Audio.resampleLinear input ctxRate Audio.TARGET_SAMPLE_RATE).drop
              ((st.resampleBuffer
                ++ Audio.resampleLinear input ctxRate Audio.TARGET_SAMPLE_RATE).length
                / Audio.samplesPerFrame * Audio.samplesPerFrame),
            lastEmitTime := now },
         [Audio.floatTo16BitPCM ((st.resampleBuffer
            ++ Audio.resampleLinear input ctxRate Audio.TARGET_SAMPLE_RATE).take
            ((st.resampleBuffer
              ++ Audio.resampleLinear input ctxRate Audio.TARGET_SAMPLE_RATE).length
              / Audio.samplesPerFrame * Audio.samplesPerFrame))]) := by
  unfold Audio.onaudioprocess
  rw [hrun, if_neg (by simp), if_pos hel, if_pos hf]

lemma onaudioprocess_emit_shape (st : Audio.FramerState) (input : List ℚ)
    (now : ℚ) (ctxRate : ℕ) (p : List ℤ)
    (hp : p ∈ (Audio.onaudioprocess st input now ctxRate).2) :
    p.length = ((st.resampleBuffer
        ++ Audio.resampleLinear input ctxRate Audio.TARGET_SAMPLE_RATE).length
        / Audio.samplesPerFrame) * Audio.samplesPerFrame ∧ 0 < p.length := by
  unfold Audio.onaudioprocess at hp
  by_cases hrun : st.running = false
  · rw [if_pos hrun] at hp
    simp at hp
  · rw [if_neg hrun] at hp
    by_cases hel : (Audio.FRAME_DURATION_MS : ℚ) ≤ now - st.lastEmitTime
    · rw [if_pos hel] at hp
      set buf := st.resampleBuffer
        ++ Audio.resampleLinear input ctxRate Audio.TARGET_SAMPLE_RATE with hbuf
      by_cases hf : 0 < buf.length / Audio.samplesPerFrame
      · rw [if_pos hf] at hp
        simp only [List.mem_singleton] at hp
        subst hp
        have hle : buf.length / Audio.samplesPerFrame * Audio.samplesPerFrame
            ≤ buf.length := Nat.div_mul_le_self _ _
        have hlen : (Audio.floatTo16BitPCM (buf.take
            (buf.length / Audio.samplesPerFrame * Audio.samplesPerFrame))).length
            = buf.length / Audio.samplesPerFrame * Audio.samplesPerFrame := by
          simp [Audio.floatTo16BitPCM, List.length_take, Nat.min_eq_left hle]
        refine ⟨hlen, ?_⟩
        rw [hlen]
        have h4 := samplesPerFrame_eq
        exact Nat.mul_pos hf (by omega)
      · rw [if_neg hf] at hp
        simp at hp
    · rw [if_neg hel] at hp
      simp at hp

/-- C5: for unequal rates with native rate above target rate, `resampleLinear`
emits exactly `floor(inputLength / (nativeRate/targetRate))` samples, and
output sample `i` is the linear blend of the native samples at `floor(idx)`
and `min(floor(idx)+1, lastIndex)` weighted by the fractional part of
`idx = i * (nativeRate/targetRate)`. -/
theorem resampleLinear_downsample_spec (input : List ℚ) (ir tr : ℕ)
    (_htr : 0 < tr) (hlt : tr < ir) :
    (Audio.resampleLinear input ir tr).length
      = (⌊(input.length : ℚ) / ((ir : ℚ) / (tr : ℚ))⌋).toNat ∧
    ∀ i : ℕ, i < (⌊(input.length : ℚ) / ((ir : ℚ) / (tr : ℚ))⌋).toNat →
      (Audio.resampleLinear input ir tr).getD i 0
        = input.getD (⌊(i : ℚ) * ((ir : ℚ) / (tr : ℚ))⌋).toNat 0
            * (1 - ((i : ℚ) * ((ir : ℚ) / (tr : ℚ))
                - ((⌊(i : ℚ) * ((ir : ℚ) / (tr : ℚ))⌋).toNat : ℚ)))
          + input.getD
              (min ((⌊(i : ℚ) * ((ir : ℚ) / (tr : ℚ))⌋).toNat + 1)
                (input.length - 1)) 0
            * ((i : ℚ) * ((ir : ℚ) / (tr : ℚ))
                - ((⌊(i : ℚ) * ((ir : ℚ) / (tr : ℚ))⌋).toNat : ℚ)) := by
  have hne : ir ≠ tr := by omega
  refine ⟨resampleLinear_length_ne input ir tr hne, ?_⟩
  intro i hi
  unfold Audio.resampleLinear
  rw [if_neg hne]
  exact getD_map_range _ _ _ _ hi

/-- Witness for C5: downsampling [0, 1] from rate 2 to rate 1 yields one
sample, which equals the blend at index 0 (value 0). -/
theorem resampleLinear_downsample_spec_witness :
    (Audio.resampleLinear [0, 1] 2 1).length = 1 ∧
    (Audio.resampleLinear [0, 1] 2 1).getD 0 0 = 0 := by
  have h := resampleLinear_downsample_spec [0, 1] 2 1 (by norm_num) (by norm_num)
  constructor
  · rw [h.1]
    norm_num
  · have h2 := h.2 0 (by norm_num)
    rw [h2]
    norm_num [List.getD_cons_zero, List.getD_cons_succ]

lemma onaudioprocess_silence_16k :
    (Audio.onaudioprocess Audio.runningState (List.replicate 4000 0) 250 16000).2
      = [Audio.floatTo16BitPCM (List.replicate 4000 (0 : ℚ))] := by
  have hid : Audio.resampleLinear (List.replicate 4000 (0 : ℚ)) 16000
      Audio.TARGET_SAMPLE_RATE = List.replicate 4000 (0 : ℚ) := by
    have hc : (16000 : ℕ) = Audio.TARGET_SAMPLE_RATE := rfl
    unfold Audio.resampleLinear
    rw [if_pos hc]
  have hbufeq : Audio.runningState.resampleBuffer
      ++ Audio.resampleLinear (List.replicate 4000 (0 : ℚ)) 16000 Audio.TARGET_SAMPLE_RATE
      = List.replicate 4000 (0 : ℚ) := by
    rw [hid]
    rfl
  have hel : (Audio.FRAME_DURATION_MS : ℚ) ≤ 250 - Audio.runningState.lastEmitTime := by
    norm_num [Audio.runningState, Audio.FRAME_DURATION_MS]
  have hf : 0 < (Audio.runningState.resampleBuffer
      ++ Audio.resampleLinear (List.replicate 4000 (0 : ℚ)) 16000
        Audio.TARGET_SAMPLE_RATE).length / Audio.samplesPerFrame := by
    rw [hbufeq, samplesPerFrame_eq]
    norm_num [List.length_replicate]
  rw [onaudioprocess_emit _ _ _ _ rfl hel hf, hbufeq, samplesPerFrame_eq]
  norm_num [List.length_replicate, List.take_replicate]

/-- C1 counterexample: with the framer running and 24000 native samples
buffered from a single 48000 Hz capture callback at time 250 (two frames'
worth after resampling to 16000 Hz), the callback makes ONE `onChunk` call
whose payload holds 8000 samples — not two calls of `samplesPerFrame = 4000`
samples each, and a payload strictly longer than `samplesPerFrame`. -/
theorem onChunk_payload_two_frames :
    (Audio.onaudioprocess Audio.runningState (List.replicate 24000 0) 250
        48000).2.map List.length = [8000] ∧
    Audio.samplesPerFrame = 4000 := by
  have hne : (48000 : ℕ) ≠ Audio.TARGET_SAMPLE_RATE := by
    norm_num [Audio.TARGET_SAMPLE_RATE]
  have hlen : (Audio.resampleLinear (List.replicate 24000 (0 : ℚ)) 48000
      Audio.TARGET_SAMPLE_RATE).length = 8000 := by
    rw [resampleLinear_length_ne _ _ _ hne]
    norm_num [List.length_replicate, Audio.TARGET_SAMPLE_RATE]
    rfl
  have hbuflen : (Audio.runningState.resampleBuffer
      ++ Audio.resampleLinear (List.replicate 24000 (0 : ℚ)) 48000
        Audio.TARGET_SAMPLE_RATE).length = 8000 := by
    rw [List.length_append, hlen]
    rfl
  have hel : (Audio.FRAME_DURATION_MS : ℚ) ≤ 250 - Audio.runningState.lastEmitTime := by
    norm_num [Audio.runningState, Audio.FRAME_DURATION_MS]
  have hf : 0 < (Audio.runningState.resampleBuffer
      ++ Audio.resampleLinear (List.replicate 24000 (0 : ℚ)) 48000
        Audio.TARGET_SAMPLE_RATE).length / Audio.samplesPerFrame := by
    rw [hbuflen, samplesPerFrame_eq]
    norm_num
  refine ⟨?_, samplesPerFrame_eq⟩
  rw [onaudioprocess_emit _ _ _ _ rfl hel hf]
  simp only [List.map_cons, List.map_nil, List.cons.injEq, and_true]
  simp only [Audio.floatTo16BitPCM, List.length_map, List.length_take]
  rw [hbuflen, samplesPerFrame_eq]
  decide

/-- C1 amended: each capture-callback invocation makes at most one `onChunk`
call; when it emits, the single payload carries ALL currently-complete
frames — exactly `framesToEmit * samplesPerFrame` samples where
`framesToEmit = floor(buffered / samplesPerFrame)` — so every payload's
sample count is a positive integer multiple of `samplesPerFrame` (exactly
`samplesPerFrame` precisely when one frame's worth is buffered). -/
theorem onChunk_single_call_whole_frames (st : Audio.FramerState)
    (input : List ℚ) (now : ℚ) (ctxRate : ℕ) :
    (Audio.onaudioprocess st input now ctxRate).2.length ≤ 1 ∧
    ∀ p ∈ (Audio.onaudioprocess st input now ctxRate).2,
      p.length = ((st.resampleBuffer
          ++ Audio.resampleLinear input ctxRate Audio.TARGET_SAMPLE_RATE).length
          / Audio.samplesPerFrame) * Audio.samplesPerFrame ∧
      ∃ k : ℕ, 0 < k ∧ p.length = k * Audio.samplesPerFrame := by
  constructor
  · unfold Audio.onaudioprocess
    dsimp only
    split
    · simp
    · split
      · split
        · simp
        · simp
      · simp
  · intro p hp
    obtain ⟨hsh, hpos⟩ := onaudioprocess_emit_shape st input now ctxRate p hp
    refine ⟨hsh, (st.resampleBuffer
        ++ Audio.resampleLinear input ctxRate Audio.TARGET_SAMPLE_RATE).length
        / Audio.samplesPerFrame, ?_, hsh⟩
    rcases Nat.eq_zero_or_pos ((st.resampleBuffer
        ++ Audio.resampleLinear input ctxRate Audio.TARGET_SAMPLE_RATE).length
        / Audio.samplesPerFrame) with h0 | h
    · rw [h0, Nat.zero_mul] at hsh
      omega
    · exact h

/-- Witness for C1 (amended) on a concrete emitting pass: one 16000 Hz block
of 4000 zero samples at time 250 yields at most one call, and the payload's
length facts hold at that payload. -/
theorem onChunk_single_call_whole_frames_witness :
    (Audio.onaudioprocess Audio.runningState (List.replicate 4000 0) 250
        16000).2.length ≤ 1 ∧
    ((Audio.floatTo16BitPCM (List.replicate 4000 (0 : ℚ))).length
        = ((Audio.runningState.resampleBuffer
            ++ Audio.resampleLinear (List.replicate 4000 0) 16000
              Audio.TARGET_SAMPLE_RATE).length
            / Audio.samplesPerFrame) * Audio.samplesPerFrame ∧
      ∃ k : ℕ, 0 < k ∧ (Audio.floatTo16BitPCM (List.replicate 4000 (0 : ℚ))).length
        = k * Audio.samplesPerFrame) :=
  ⟨(onChunk_single_call_whole_frames Audio.runningState (List.replicate 4000 0)
      250 16000).1,
   (onChunk_single_call_whole_frames Audio.runningState (List.replicate 4000 0)
      250 16000).2 (Audio.floatTo16BitPCM (List.replicate 4000 (0 : ℚ)))
      (by
        rw [onaudioprocess_silence_16k]
        exact List.mem_singleton.mpr rfl)⟩

/-- C10: over any capture run (any initial state, any context rate, any
sequence of capture callbacks), every payload handed to `onChunk` consists of
a whole positive number of complete frames: its sample count is a positive
multiple of `samplesPerFrame` and its byte length (2 bytes per PCM16 sample)
is the same positive multiple of `samplesPerFrame * 2`, which is 8000 bytes
under the default 16000 Hz / 250 ms configuration. -/
theorem runFramer_payload_whole_frames (events : List (List ℚ × ℚ))
    (st : Audio.FramerState) (ctxRate : ℕ) (p : List ℤ)
    (hp : p ∈ (Audio.runFramer st ctxRate events).2) :
    ∃ k : ℕ, 0 < k ∧ p.length = k * Audio.samplesPerFrame ∧
      2 * p.length = k * (Audio.samplesPerFrame * 2) ∧
      Audio.samplesPerFrame * 2 = 8000 := by
  induction events generalizing st with
  | nil =>
    simp [Audio.runFramer] at hp
  | cons e rest ih =>
    simp only [Audio.runFramer, List.mem_append] at hp
    rcases hp with hp | hp
    · obtain ⟨hsh, hpos⟩ := onaudioprocess_emit_shape st e.1 e.2 ctxRate p hp
      refine ⟨(st.resampleBuffer
          ++ Audio.resampleLinear e.1 ctxRate Audio.TARGET_SAMPLE_RATE).length
          / Audio.samplesPerFrame, ?_, hsh, ?_, ?_⟩
      · rcases Nat.eq_zero_or_pos ((st.resampleBuffer
            ++ Audio.resampleLinear e.1 ctxRate Audio.TARGET_SAMPLE_RATE).length
            / Audio.samplesPerFrame) with h0 | h
        · rw [h0, Nat.zero_mul] at hsh
          omega
        · exact h
      · rw [hsh]
        ring
      · rw [samplesPerFrame_eq]
    · exact ih _ hp

/-- Witness for C10 on a concrete one-event run that emits a frame. -/
theorem runFramer_payload_whole_frames_witness :
    ∃ k : ℕ, 0 < k ∧
      (Audio.floatTo16BitPCM (List.replicate 4000 (0 : ℚ))).length
        = k * Audio.samplesPerFrame ∧
      2 * (Audio.floatTo16BitPCM (List.replicate 4000 (0 : ℚ))).length
        = k * (Audio.samplesPerFrame * 2) ∧
      Audio.samplesPerFrame * 2 = 8000 :=
  runFramer_payload_whole_frames [(List.replicate 4000 0, 250)]
    Audio.runningState 16000 (Audio.floatTo16BitPCM (List.replicate 4000 (0 : ℚ)))
    (by
      simp only [Audio.runFramer, List.mem_append]
      rw [onaudioprocess_silence_16k]
      exact Or.inl (List.mem_singleton.mpr rfl))
